import Mathlib

/-!
Verification of the extension controller of the gardenlet federated-seed
package (pkg/gardenlet/controller/federatedseed/extensions/extensions.go)
against its natural-language specification.

The Go source is shallowly embedded: event payloads (Go interface values)
become an inductive type, the rate-limited work queue becomes a structure
with a pending-key list and a shutting-down flag, and the event-handler
functions and update predicates are translated line by line.  The parts of
the system whose code is referenced but not present (the two reconcile
control loops, the queue runtime helpers) are modelled from the
specification text, as marked in their doc comments.
-/

namespace Gardener

/-- A reference to an external managed resource, as carried in the
`resources` list of the status of an extension object
(gardencorev1beta1.NamedResourceReference: a name plus a
CrossVersionObjectReference). -/
structure NamedResourceReference where
  name : String
  refKind : String
  refName : String
  refAPIVersion : String
  deriving DecidableEq, Repr

/-- runtime.RawExtension: an opaque serialized blob.  The `raw` field holds
the serialized bytes, here modelled as a string.  reflect-based deep
equality on a RawExtension compares these bytes structurally. -/
structure RawExtension where
  raw : String
  deriving DecidableEq, Repr

/-- The part of an extension object spec that the controller reads:
GetExtensionType returns the provider type string, GetExtensionPurpose the
optional purpose discriminator. -/
structure ExtensionSpec where
  extType : String
  purpose : Option String
  deriving DecidableEq, Repr

/-- The part of an extension object status that the controller reads:
GetState returns the opaque state blob (a nilable pointer, hence Option),
GetResources the list of managed resource references. -/
structure ExtensionStatus where
  state : Option RawExtension
  resources : List NamedResourceReference
  deriving DecidableEq, Repr

/-- An extension custom resource as seen by the controller: object
metadata (namespace and name), spec and status. -/
structure ExtensionObject where
  ns : String
  name : String
  spec : ExtensionSpec
  status : ExtensionStatus
  deriving DecidableEq, Repr

/-- A payload delivered to an informer event handler (a Go interface
value).  The type assertion `obj.(extensionsv1alpha1.Object)` succeeds
exactly on the `extensionObj` constructor.  A `foreignWithMeta` value is
some other API object that still carries object metadata (so a key can be
computed for it); `keyless` is a payload for which
cache.MetaNamespaceKeyFunc fails (for example a tombstone wrapper of an
unexpected shape). -/
inductive EventObject where
  | extensionObj (o : ExtensionObject)
  | foreignWithMeta (ns name : String)
  | keyless
  deriving DecidableEq, Repr

/-- cache.MetaNamespaceKeyFunc: computes the `namespace/name` key of an
object carrying metadata (just `name` for cluster-scoped objects), and
returns an error for a payload without accessible metadata. -/
def metaNamespaceKeyFunc : EventObject → Except String String
  | .extensionObj o => .ok (if o.ns = "" then o.name else o.ns ++ "/" ++ o.name)
  | .foreignWithMeta ns name => .ok (if ns = "" then name else ns ++ "/" ++ name)
  | .keyless => .error "object has no meta"

/-- A rate-limiting work queue (client-go workqueue.RateLimitingInterface)
restricted to the operations the embedded code uses: the ordered list of
pending keys and the shutting-down flag. -/
structure Queue where
  items : List String
  shuttingDown : Bool
  deriving DecidableEq, Repr

/-- workqueue Add: a no-op while the queue is shutting down, a no-op when
the key is already pending (the queue de-duplicates), otherwise appends
the key at the tail. -/
def Queue.add (q : Queue) (key : String) : Queue :=
  if q.shuttingDown then q
  else if key ∈ q.items then q
  else { q with items := q.items ++ [key] }

/-- An empty queue that is not shutting down. -/
def Queue.empty : Queue := { items := [], shuttingDown := false }

/-- Source function `enqueue`: computes the key of the object with
cache.MetaNamespaceKeyFunc; on error it returns without doing anything,
otherwise it adds the key to the queue.  No error is ever surfaced: the
function has no error output at all. -/
def enqueue (queue : Queue) (obj : EventObject) : Queue :=
  match metaNamespaceKeyFunc obj with
  | .error _ => queue
  | .ok key => queue.add key

/-- Source function `createEnqueueFunc`: the add/delete event handler, a
closure over the queue that unconditionally enqueues the payload. -/
def createEnqueueFunc (queue : Queue) (newObj : EventObject) : Queue :=
  enqueue queue newObj

/-- Source function `createEnqueueOnUpdateFunc`: the update event handler;
when a predicate is configured and rejects the pair, it returns without
enqueueing, otherwise it enqueues the new object. -/
def createEnqueueOnUpdateFunc (predicateFunc : Option (EventObject → EventObject → Bool))
    (queue : Queue) (newObj oldObj : EventObject) : Queue :=
  match predicateFunc with
  | some p => if p newObj oldObj then enqueue queue newObj else queue
  | none => enqueue queue newObj

/-- Source function `extensionPredicateFunc`: lifts a predicate on typed
extension objects to event payloads; both type assertions must succeed,
otherwise the result is false. -/
def extensionPredicateFunc (f : ExtensionObject → ExtensionObject → Bool) :
    EventObject → EventObject → Bool
  | .extensionObj n, .extensionObj o => f n o
  | _, _ => false

/-- Source function `extensionStateOrResourcesChanged`: true when the
observed state blobs or the observed resource lists of the new and old
objects are not deep-equal.  apiequality.Semantic.DeepEqual has no custom
equality registered for RawExtension or NamedResourceReference, so it is
structural equality on the raw bytes and on the lists (element-wise, in
order). -/
def extensionStateOrResourcesChanged (newObj oldObj : EventObject) : Bool :=
  extensionPredicateFunc
    (fun n o =>
      !(decide (n.status.state = o.status.state)) ||
        !(decide (n.status.resources = o.status.resources)))
    newObj oldObj

/-- Source function `extensionTypeChanged`: true when the extension type of
the old object differs from that of the new one. -/
def extensionTypeChanged (newObj oldObj : EventObject) : Bool :=
  extensionPredicateFunc
    (fun n o => decide (o.spec.extType ≠ n.spec.extType))
    newObj oldObj

/-- The update handler wired to the per-kind required-type queue: an update
enqueues there only when the extension type changed. -/
def enqueueOnUpdateRequiredType (queue : Queue) (newObj oldObj : EventObject) : Queue :=
  createEnqueueOnUpdateFunc (some extensionTypeChanged) queue newObj oldObj

/-- The update handler wired to the per-kind state-mirror (ShootState)
queue: an update enqueues there only when the observed state or the
observed resources changed. -/
def enqueueOnUpdateStateMirror (queue : Queue) (newObj oldObj : EventObject) : Queue :=
  createEnqueueOnUpdateFunc (some extensionStateOrResourcesChanged) queue newObj oldObj

/-- A JSON value, used to make precise what it means for two serialized
state blobs to be semantically equal: they are renderings of the same
`Json` value. -/
inductive Json where
  | jnull
  | jbool (b : Bool)
  | jnum (n : Int)
  | jstr (s : String)
  | jobj (fields : List (String × Json))

mutual

/-- Renders a JSON value to its serialized text; `pad` is inserted after
each colon, so different choices of `pad` give byte-wise different but
semantically identical serializations of the same value. -/
def Json.renderWith (pad : String) : Json → String
  | .jnull => "null"
  | .jbool true => "true"
  | .jbool false => "false"
  | .jnum n => toString n
  | .jstr s => "\"" ++ s ++ "\""
  | .jobj fs => "\x7b" ++ Json.renderFieldsWith pad fs ++ "\x7d"

/-- Renders the comma-separated field list of a JSON object. -/
def Json.renderFieldsWith (pad : String) : List (String × Json) → String
  | [] => ""
  | [(k, v)] => "\"" ++ k ++ "\":" ++ pad ++ Json.renderWith pad v
  | (k, v) :: fs =>
      "\"" ++ k ++ "\":" ++ pad ++ Json.renderWith pad v ++ "," ++
        Json.renderFieldsWith pad fs

end

/-! ## Startup (Controller.Run)

Controller.Run wraps the context in a two-minute timeout, waits for all
informer caches to sync, and returns an error without starting any worker
when the wait fails.  Real time is abstracted into the boolean outcome of
cache.WaitForCacheSync under that timeout. -/

/-- The cache-sync timeout Controller.Run passes to context.WithTimeout
(time.Minute * 2), in seconds. -/
def runCacheSyncTimeoutSeconds : Nat := 120

/-- The per-kind artifact as far as startup is concerned: whether the kind
registered a required-type (controllerInstallationExtension) queue and
whether it registered a state-mirror (shootState) queue. -/
structure ArtifactShape where
  kind : String
  hasControllerInstallationExtensionQueue : Bool
  hasShootStateQueue : Bool
  deriving DecidableEq, Repr

/-- Workers started by one call of createControllerInstallationWorkers: one
for the shared controllerInstallationRequired queue plus one per artifact
that has a controllerInstallationExtension queue. -/
def workersPerControllerInstallationRound (artifacts : List ArtifactShape) : Nat :=
  1 + (artifacts.filter (·.hasControllerInstallationExtensionQueue)).length

/-- Workers started by one call of createShootStateWorkers: one per
artifact that has a shootState queue. -/
def workersPerShootStateRound (artifacts : List ArtifactShape) : Nat :=
  (artifacts.filter (·.hasShootStateQueue)).length

/-- Outcome of Controller.Run: the returned error, if any, and how many
worker loops were launched. -/
structure RunResult where
  error : Option String
  workersStarted : Nat
  deriving DecidableEq, Repr

/-- Controller.Run: if the informer caches did not all sync within the
timeout, return the timeout error having started nothing; otherwise start
controllerInstallationWorkers rounds of installation workers and
shootStateWorkers rounds of state-mirror workers and return nil. -/
def Controller.run (cachesSyncedWithinTimeout : Bool) (artifacts : List ArtifactShape)
    (controllerInstallationWorkers shootStateWorkers : Nat) : RunResult :=
  if !cachesSyncedWithinTimeout then
    { error := some "timeout waiting for extension informers to sync", workersStarted := 0 }
  else
    { error := none
      workersStarted :=
        controllerInstallationWorkers * workersPerControllerInstallationRound artifacts +
          shootStateWorkers * workersPerShootStateRound artifacts }

/-! ## Shared reconciliation state and the event handlers (frame model)

The controllerInstallationControl owns the kindToRequiredTypes aggregate
behind a sync.RWMutex.  To state that the event handlers neither read nor
touch it, the handlers are lifted to a combined state holding the queue
together with the aggregate and its lock. -/

/-- The guarded shared aggregate: kind to the set of required type strings,
plus the reader and writer hold counts of its RWMutex. -/
structure SharedAggregate where
  kindToRequiredTypes : List (String × List String)
  readLockHolders : Nat
  writeLockHeld : Bool
  deriving DecidableEq, Repr

/-- A controller state as an event handler could see it: one work queue
plus the shared aggregate. -/
structure HandlerView where
  queue : Queue
  shared : SharedAggregate
  deriving DecidableEq, Repr

/-- The add/delete handler lifted to the full controller state: the body of
createEnqueueFunc only computes the key and calls queue.Add, so the shared
component is carried through untouched. -/
def handlerOnAdd (s : HandlerView) (obj : EventObject) : HandlerView :=
  { s with queue := createEnqueueFunc s.queue obj }

/-- The update handler lifted to the full controller state, with its
configured predicate. -/
def handlerOnUpdate (predicateFunc : Option (EventObject → EventObject → Bool))
    (s : HandlerView) (newObj oldObj : EventObject) : HandlerView :=
  { s with queue := createEnqueueOnUpdateFunc predicateFunc s.queue newObj oldObj }

/-- The delete handler lifted to the full controller state; the source
wires the same createEnqueueFunc closure for add and delete. -/
def handlerOnDelete (s : HandlerView) (obj : EventObject) : HandlerView :=
  { s with queue := createEnqueueFunc s.queue obj }

/-! ## Required-type tracker (transition system)

Modelled from the spec: the bodies of onExtensionKindChanged and
reconcileInstallationRequired (spec sections 4.2 and 4.3) are not part of
the excerpt; only their wiring is.  The model below follows the
specification text: events enqueue object keys into the per-kind queue
(updates only when the extension type changed, matching the
extensionTypeChanged predicate of the source); processing a per-kind queue
entry re-lists the live objects of that kind, enqueues an installation key
for every type added to or removed from the recorded set, and replaces the
recorded set; processing an installation key sets the required flag of the
record to the membership of the type in the recorded set. -/

/-- A live extension object of some kind in the seed cluster, as the
required-type tracker sees it: kind, identity and provider type. -/
structure TrackedObject where
  kind : String
  ns : String
  name : String
  extType : String
  deriving DecidableEq, Repr

/-- The namespace/name key of a tracked object. -/
def TrackedObject.key (o : TrackedObject) : String :=
  if o.ns = "" then o.name else o.ns ++ "/" ++ o.name

/-- Whether two tracked objects denote the same API object (same kind and
same namespace/name identity). -/
def TrackedObject.sameIdentity (a b : TrackedObject) : Bool :=
  decide (a.kind = b.kind ∧ a.ns = b.ns ∧ a.name = b.name)

/-- Adds a key at the tail of a de-duplicating queue unless it is already
pending. -/
def insertKey {α : Type} [DecidableEq α] (a : α) (l : List α) : List α :=
  if a ∈ l then l else l ++ [a]

/-- The whole state of the required-type tracking pipeline: the live
objects of the seed, the per-kind queue of pending object keys (kind
paired with namespace/name key), the queue of pending installation keys
(kind, type), the guarded kindToRequiredTypes aggregate, and the required
flag of every installation record. -/
structure TrackerState where
  live : List TrackedObject
  kindQueue : List (String × String)
  installQueue : List (String × String)
  kindToRequiredTypes : String → List String
  required : String × String → Bool

/-- The initial state: no objects, empty queues, empty aggregate, no
record flagged as required. -/
def TrackerState.init : TrackerState :=
  { live := []
    kindQueue := []
    installQueue := []
    kindToRequiredTypes := fun _ => []
    required := fun _ => false }

/-- The distinct provider types in use by the live objects of a kind
(listed with multiplicity; only membership matters). -/
def typesOfKind (live : List TrackedObject) (k : String) : List String :=
  (live.filter (fun o => o.kind = k)).map (fun o => o.extType)

/-- There is at least one live object of the given kind and type. -/
def hasLiveObject (live : List TrackedObject) (k t : String) : Prop :=
  ∃ o, o ∈ live ∧ o.kind = k ∧ o.extType = t

/-- An add event: the object appears in the store and its key is enqueued
into the per-kind queue unconditionally. -/
def handleAddEvent (s : TrackerState) (o : TrackedObject) : TrackerState :=
  { s with live := o :: s.live, kindQueue := insertKey (o.kind, o.key) s.kindQueue }

/-- A delete event: the object leaves the store and its key is enqueued
into the per-kind queue unconditionally. -/
def handleDeleteEvent (s : TrackerState) (o : TrackedObject) : TrackerState :=
  { s with live := s.live.filter (fun x => !(x.sameIdentity o))
           kindQueue := insertKey (o.kind, o.key) s.kindQueue }

/-- An update event: the stored object is replaced by the new version; the
key is enqueued into the per-kind queue only when the extension type
changed (the extensionTypeChanged predicate of the source). -/
def handleUpdateEvent (s : TrackerState) (oldO newO : TrackedObject) : TrackerState :=
  if newO.extType = oldO.extType then
    { s with live := s.live.replace oldO newO }
  else
    { s with live := s.live.replace oldO newO
             kindQueue := insertKey (newO.kind, newO.key) s.kindQueue }

/-- The types that were added to or removed from the recorded type set of
a kind: the symmetric difference of the old and the new set. -/
def changedTypes (oldTypes newTypes : List String) : List String :=
  oldTypes.filter (fun t => !(decide (t ∈ newTypes))) ++
    newTypes.filter (fun t => !(decide (t ∈ oldTypes)))

/-- Processing one per-kind queue entry, onExtensionKindChanged of the
spec: re-list the live objects of the kind, compute the new type set,
enqueue an installation key for every type added or removed relative to
the recorded set, and replace the recorded set for the kind. -/
def processKindEntry (s : TrackerState) (e : String × String) : TrackerState :=
  { s with kindQueue := s.kindQueue.erase e
           installQueue :=
             ((changedTypes (s.kindToRequiredTypes e.1) (typesOfKind s.live e.1)).map
               (fun t => (e.1, t))).foldl (fun q x => insertKey x q) s.installQueue
           kindToRequiredTypes := fun k =>
             if k = e.1 then typesOfKind s.live e.1 else s.kindToRequiredTypes k }

/-- Processing one installation key, reconcileInstallationRequired of the
spec: under the read lock compute whether the type is in the recorded set
of the kind and bring the required flag of the record to that value. -/
def processInstallEntry (s : TrackerState) (e : String × String) : TrackerState :=
  { s with installQueue := s.installQueue.erase e
           required := fun p =>
             if p = e then decide (e.2 ∈ s.kindToRequiredTypes e.1) else s.required p }

/-- One step of the tracking pipeline: an informer event arrives, or a
worker processes one pending key of one of the two queues. -/
inductive TrackerStep : TrackerState → TrackerState → Prop where
  | addEvent (s : TrackerState) (o : TrackedObject) : TrackerStep s (handleAddEvent s o)
  | updateEvent (s : TrackerState) (oldO newO : TrackedObject)
      (hkind : newO.kind = oldO.kind) (hns : newO.ns = oldO.ns) (hname : newO.name = oldO.name) :
      TrackerStep s (handleUpdateEvent s oldO newO)
  | deleteEvent (s : TrackerState) (o : TrackedObject) : TrackerStep s (handleDeleteEvent s o)
  | processKind (s : TrackerState) (e : String × String) (h : e ∈ s.kindQueue) :
      TrackerStep s (processKindEntry s e)
  | processInstall (s : TrackerState) (e : String × String) (h : e ∈ s.installQueue) :
      TrackerStep s (processInstallEntry s e)

/-- All queues of the tracking pipeline have drained. -/
def TrackerQuiescent (s : TrackerState) : Prop :=
  s.kindQueue = [] ∧ s.installQueue = []

/-- Some object key of the given kind is pending in the per-kind queue. -/
def pendingKind (s : TrackerState) (k : String) : Prop :=
  ∃ key, (k, key) ∈ s.kindQueue

/-- The inductive invariant of the tracking pipeline: for every kind with
no pending per-kind key, the recorded type set agrees with the live
objects; for every (kind, type) with no pending installation key, the
required flag agrees with the recorded set. -/
def TrackerInv (s : TrackerState) : Prop :=
  (∀ k, ¬ pendingKind s k →
    ∀ t, t ∈ s.kindToRequiredTypes k ↔ hasLiveObject s.live k t) ∧
  (∀ e : String × String, e ∉ s.installQueue →
    (s.required e = true ↔ e.2 ∈ s.kindToRequiredTypes e.1))

/-! ## Reconcile operations (idempotence model)

Modelled from the spec: the reconcile functions themselves
(createControllerInstallationRequiredReconcileFunc and
createShootStateSyncReconcileFunc) are not part of the excerpt.  The
models follow spec sections 4.3 and 4.4: the installation reconciler
patches the record only when the desired flag differs from the current
one, and the state-mirror reconciler upserts into the tenant snapshot,
skipping the write when the stored entry is already correct. -/

/-- The state the installation-required reconcile operates on: the guarded
aggregate and the installation records of the management cluster (record
key paired with its required flag); a missing key is a missing record. -/
structure InstallationWorld where
  kindToRequiredTypes : String → List String
  records : List ((String × String) × Bool)

/-- Looks up the required flag of the installation record for a
(kind, type) key, when the record exists. -/
def lookupRecord (records : List ((String × String) × Bool)) (e : String × String) :
    Option Bool :=
  (records.find? (fun r => decide (r.1 = e))).map (fun r => r.2)

/-- Sets the required flag of the record with the given key, leaving every
other record alone. -/
def setRecord (records : List ((String × String) × Bool)) (e : String × String) (b : Bool) :
    List ((String × String) × Bool) :=
  records.map (fun r => if r.1 = e then (r.1, b) else r)

/-- Modelled from the spec: reconcileInstallationRequired(kind, type)
computes want as membership of the type in the recorded set, treats a
missing record as a no-op, and patches the flag only when it differs from
want.  Returns the new world and whether a patch was issued. -/
def reconcileInstallationRequired (w : InstallationWorld) (e : String × String) :
    InstallationWorld × Bool :=
  let want := decide (e.2 ∈ w.kindToRequiredTypes e.1)
  match lookupRecord w.records e with
  | none => (w, false)
  | some req =>
      if want = req then (w, false)
      else ({ w with records := setRecord w.records e want }, true)

/-- One entry of a tenant snapshot (ShootState): the mirrored state and
resources of one extension object, keyed by kind, name and purpose. -/
structure SnapshotEntry where
  kind : String
  name : String
  purpose : Option String
  state : Option RawExtension
  resources : List NamedResourceReference
  deriving DecidableEq, Repr

/-- Whether a snapshot entry carries the given (kind, name, purpose)
key. -/
def SnapshotEntry.hasKey (x : SnapshotEntry) (kind name : String)
    (purpose : Option String) : Bool :=
  decide (x.kind = kind ∧ x.name = name ∧ x.purpose = purpose)

/-- The snapshot entry stored under a (kind, name, purpose) key, if
any. -/
def findSnapshotEntry (entries : List SnapshotEntry) (kind name : String)
    (purpose : Option String) : Option SnapshotEntry :=
  entries.find? (fun x => x.hasKey kind name purpose)

/-- Upserts an entry into a snapshot: replaces every entry with the same
(kind, name, purpose) key, else appends. -/
def upsertSnapshotEntry (entries : List SnapshotEntry) (e : SnapshotEntry) :
    List SnapshotEntry :=
  if entries.any (fun x => x.hasKey e.kind e.name e.purpose) then
    entries.map (fun x => if x.hasKey e.kind e.name e.purpose then e else x)
  else entries ++ [e]

/-- Modelled from the spec: syncExtensionState(kind, key) re-reads the
object (absence is a successful no-op), resolves the owning tenant
(failure to resolve is a successful skip), builds the mirror entry and
upserts it into the snapshot of the tenant, skipping the write when the
stored entry is already correct.  Returns the new snapshot and whether a
write was issued. -/
def syncExtensionState (kind : String) (objectRead : Option ExtensionObject)
    (tenantFound : Bool) (snapshot : List SnapshotEntry) : List SnapshotEntry × Bool :=
  match objectRead with
  | none => (snapshot, false)
  | some o =>
      if !tenantFound then (snapshot, false)
      else
        let entry : SnapshotEntry :=
          { kind := kind, name := o.name, purpose := o.spec.purpose,
            state := o.status.state, resources := o.status.resources }
        if findSnapshotEntry snapshot kind o.name o.spec.purpose = some entry then
          (snapshot, false)
        else
          (upsertSnapshotEntry snapshot entry, true)

/-! ## Shutdown (Controller.Stop)

Controller.Stop first calls shutdownQueues, marking every queue of the
controller as shutting down, and then blocks on the wait group until every
worker loop has returned.  The worker loop runtime
(controllerutils.CreateWorker) is modelled from the spec: a worker keeps
draining its queue and returns only once it observes the queue shutting
down and drained; the wait-group wait unblocks only when every worker has
returned. -/

/-- One worker loop: the index of the queue it drains and whether the loop
is still running. -/
structure WorkerLoop where
  queueIdx : Nat
  running : Bool
  deriving DecidableEq, Repr

/-- How far the Stop call has progressed: not yet called, queues marked as
shutting down (shutdownQueues has run, the wait is in progress), or
returned (the wait group released the caller). -/
inductive StopPhase where
  | notCalled
  | queuesShutDown
  | returned
  deriving DecidableEq, Repr

/-- The controller with its queues, its worker loops and the progress of
the Stop call. -/
structure ControllerSystem where
  queues : List Queue
  workers : List WorkerLoop
  phase : StopPhase
  deriving DecidableEq, Repr

/-- shutdownQueues of the controller artifacts: marks every queue as
shutting down. -/
def shutdownQueues (qs : List Queue) : List Queue :=
  qs.map (fun q => { q with shuttingDown := true })

/-- Removes the head item of the queue at index j, leaving the list
unchanged when the index is out of range. -/
def popQueueItem (qs : List Queue) (j : Nat) : List Queue :=
  match qs.get? j with
  | none => qs
  | some q => qs.set j { q with items := q.items.tail }

/-- Marks the worker loop at index i as returned, leaving the list
unchanged when the index is out of range. -/
def markWorkerDone (ws : List WorkerLoop) (i : Nat) : List WorkerLoop :=
  match ws.get? i with
  | none => ws
  | some w => ws.set i { w with running := false }

/-- One step of the controller during its lifetime: a worker processes one
pending key, a worker observes closure of its drained queue and returns,
Stop marks all queues as shutting down, or the wait group releases Stop
once every worker has returned. -/
inductive SystemStep : ControllerSystem → ControllerSystem → Prop where
  | workerProcess (s : ControllerSystem) (i : Nat) (w : WorkerLoop) (q : Queue)
      (hw : s.workers.get? i = some w) (hrun : w.running = true)
      (hq : s.queues.get? w.queueIdx = some q) (hne : q.items ≠ []) :
      SystemStep s { s with queues := popQueueItem s.queues w.queueIdx }
  | workerExit (s : ControllerSystem) (i : Nat) (w : WorkerLoop) (q : Queue)
      (hw : s.workers.get? i = some w) (hrun : w.running = true)
      (hq : s.queues.get? w.queueIdx = some q)
      (hshut : q.shuttingDown = true) (hempty : q.items = []) :
      SystemStep s { s with workers := markWorkerDone s.workers i }
  | stopShutdown (s : ControllerSystem) (h : s.phase = .notCalled) :
      SystemStep s { s with queues := shutdownQueues s.queues, phase := .queuesShutDown }
  | stopReturn (s : ControllerSystem) (h : s.phase = .queuesShutDown)
      (hall : ∀ w ∈ s.workers, w.running = false) :
      SystemStep s { s with phase := .returned }

/-- The safety invariant of shutdown: once Stop has been called every
queue is marked as shutting down, and once Stop has returned every worker
loop has returned. -/
def StopInv (s : ControllerSystem) : Prop :=
  (s.phase ≠ .notCalled → ∀ q ∈ s.queues, q.shuttingDown = true) ∧
  (s.phase = .returned → ∀ w ∈ s.workers, w.running = false)

/-! ## Concrete sample inputs used by witnesses and counterexamples -/

/-- A live Infrastructure object of type aws, used to exercise the
required-type pipeline on a concrete run. -/
def sampleTrackedObject : TrackedObject :=
  { kind := "Infrastructure", ns := "shoot--foo--bar", name := "infra", extType := "aws" }

/-- The pipeline state after one add event, the recomputation of the
Infrastructure kind and the reconciliation of the (Infrastructure, aws)
installation key: a concrete quiescent state. -/
def c1SampleFinal : TrackerState :=
  processInstallEntry
    (processKindEntry (handleAddEvent TrackerState.init sampleTrackedObject)
      ("Infrastructure", sampleTrackedObject.key))
    ("Infrastructure", "aws")

/-- A resource reference named a. -/
def refA : NamedResourceReference :=
  { name := "a", refKind := "Secret", refName := "sa", refAPIVersion := "v1" }

/-- A resource reference named b. -/
def refB : NamedResourceReference :=
  { name := "b", refKind := "Secret", refName := "sb", refAPIVersion := "v1" }

/-- Old object of a C2 update: type aws, no state yet. -/
def c2SampleOld : ExtensionObject :=
  { ns := "shoot--foo--bar", name := "infra"
    spec := { extType := "aws", purpose := none }
    status := { state := none, resources := [] } }

/-- New object of a C2 update: same type, the state now observed. -/
def c2SampleNew : ExtensionObject :=
  { ns := "shoot--foo--bar", name := "infra"
    spec := { extType := "aws", purpose := none }
    status := { state := some { raw := "ok" }, resources := [] } }

/-- New object of the converse C2 update: only the type changed. -/
def c2SampleNewType : ExtensionObject :=
  { ns := "shoot--foo--bar", name := "infra"
    spec := { extType := "azure", purpose := none }
    status := { state := none, resources := [] } }

/-- Old object of the C4 update: resources listed as [a, b]. -/
def c4SampleOld : ExtensionObject :=
  { ns := "shoot--foo--bar", name := "infra"
    spec := { extType := "aws", purpose := none }
    status := { state := none, resources := [refA, refB] } }

/-- New object of the C4 update: the same two resources listed as
[b, a]. -/
def c4SampleNew : ExtensionObject :=
  { ns := "shoot--foo--bar", name := "infra"
    spec := { extType := "aws", purpose := none }
    status := { state := none, resources := [refB, refA] } }

/-- The JSON value written {"x":1}. -/
def c5SampleValue : Json := Json.jobj [("x", Json.jnum 1)]

/-- Old object of the C5 update: state serialized compactly. -/
def c5SampleOld : ExtensionObject :=
  { ns := "shoot--foo--bar", name := "infra"
    spec := { extType := "aws", purpose := none }
    status := { state := some { raw := Json.renderWith "" c5SampleValue }, resources := [] } }

/-- New object of the C5 update: the same value re-serialized with a space
after the colon. -/
def c5SampleNew : ExtensionObject :=
  { ns := "shoot--foo--bar", name := "infra"
    spec := { extType := "aws", purpose := none }
    status := { state := some { raw := Json.renderWith " " c5SampleValue }, resources := [] } }

/-- A controller with one idle queue and one running worker, before Stop
is called. -/
def c7SampleInit : ControllerSystem :=
  { queues := [Queue.empty]
    workers := [{ queueIdx := 0, running := true }]
    phase := .notCalled }

/-- The sample controller after Stop marked the queues as shutting
down. -/
def c7SampleMid1 : ControllerSystem :=
  { c7SampleInit with queues := shutdownQueues c7SampleInit.queues, phase := .queuesShutDown }

/-- The sample controller after its worker observed closure and
returned. -/
def c7SampleMid2 : ControllerSystem :=
  { c7SampleMid1 with workers := markWorkerDone c7SampleMid1.workers 0 }

/-- The sample controller once the wait group released Stop. -/
def c7SampleFinal : ControllerSystem :=
  { c7SampleMid2 with phase := .returned }

/-- A handler view with an empty queue and an empty aggregate. -/
def c8SampleA : HandlerView :=
  { queue := Queue.empty
    shared := { kindToRequiredTypes := [], readLockHolders := 0, writeLockHeld := false } }

/-- A handler view with the same queue but a populated, write-locked
aggregate. -/
def c8SampleB : HandlerView :=
  { queue := Queue.empty
    shared := { kindToRequiredTypes := [("Infrastructure", ["aws"])]
                readLockHolders := 3, writeLockHeld := true } }

/-! ## Helper lemmas -/

/-- Membership in a de-duplicating insert at the tail. -/
theorem mem_insertKey {α : Type} [DecidableEq α] (a b : α) (l : List α) :
    a ∈ insertKey b l ↔ a = b ∨ a ∈ l := by
  unfold insertKey
  by_cases hb : b ∈ l
  · rw [if_pos hb]
    constructor
    · exact Or.inr
    · rintro (rfl | h)
      · exact hb
      · exact h
  · rw [if_neg hb]
    simp [List.mem_append, or_comm]

/-- The inserted key is always present afterwards. -/
theorem self_mem_insertKey {α : Type} [DecidableEq α] (b : α) (l : List α) :
    b ∈ insertKey b l :=
  (mem_insertKey b b l).mpr (Or.inl rfl)

/-- Membership after folding a list of keys into a de-duplicating
queue. -/
theorem mem_foldl_insertKey {α : Type} [DecidableEq α] (l q : List α) (a : α) :
    a ∈ l.foldl (fun acc x => insertKey x acc) q ↔ a ∈ q ∨ a ∈ l := by
  induction l generalizing q with
  | nil => simp
  | cons x xs ih =>
    rw [List.foldl_cons, ih, mem_insertKey]
    simp only [List.mem_cons]
    tauto

/-- Membership in the type list of a kind is existence of a live object of
that kind and type. -/
theorem mem_typesOfKind (live : List TrackedObject) (k t : String) :
    t ∈ typesOfKind live k ↔ hasLiveObject live k t := by
  simp only [typesOfKind, hasLiveObject, List.mem_map, List.mem_filter,
    decide_eq_true_eq]
  constructor
  · rintro ⟨o, ⟨ho, hk⟩, ht⟩
    exact ⟨o, ho, hk, ht⟩
  · rintro ⟨o, ho, hk, ht⟩
    exact ⟨o, ⟨ho, hk⟩, ht⟩

/-- Splitting existence of a live object over a cons cell. -/
theorem hasLiveObject_cons (x : TrackedObject) (xs : List TrackedObject) (k t : String) :
    hasLiveObject (x :: xs) k t ↔ (x.kind = k ∧ x.extType = t) ∨ hasLiveObject xs k t := by
  unfold hasLiveObject
  simp only [List.mem_cons]
  constructor
  · rintro ⟨o, (rfl | ho), hk, ht⟩
    · exact Or.inl ⟨hk, ht⟩
    · exact Or.inr ⟨o, ho, hk, ht⟩
  · rintro (⟨hk, ht⟩ | ⟨o, ho, hk, ht⟩)
    · exact ⟨x, Or.inl rfl, hk, ht⟩
    · exact ⟨o, Or.inr ho, hk, ht⟩

/-- Replacing one object by another that contributes to the same
(kind, type) facts leaves the live-object predicate unchanged. -/
theorem hasLiveObject_replace (live : List TrackedObject) (oldO newO : TrackedObject)
    (k t : String)
    (h : (newO.kind = k ∧ newO.extType = t) ↔ (oldO.kind = k ∧ oldO.extType = t)) :
    hasLiveObject (live.replace oldO newO) k t ↔ hasLiveObject live k t := by
  induction live with
  | nil => exact Iff.rfl
  | cons x xs ih =>
    rw [List.replace_cons]
    by_cases hx : x = oldO
    · have hbeq : (oldO == x) = true := by simp [hx]
      rw [hbeq]
      subst hx
      simp only
      rw [hasLiveObject_cons, hasLiveObject_cons, h]
    · have hbeq : (oldO == x) = false := by simp [Ne.symm hx]
      rw [hbeq]
      simp only
      rw [hasLiveObject_cons, hasLiveObject_cons, ih]

/-- Removing the occurrences of one identity does not change the
live-object predicate for any other kind. -/
theorem hasLiveObject_filter_identity (live : List TrackedObject) (o : TrackedObject)
    (k t : String) (hk : k ≠ o.kind) :
    hasLiveObject (live.filter (fun x => !(x.sameIdentity o))) k t ↔
      hasLiveObject live k t := by
  unfold hasLiveObject
  constructor
  · rintro ⟨x, hx, hxk, hxt⟩
    exact ⟨x, (List.mem_filter.mp hx).1, hxk, hxt⟩
  · rintro ⟨x, hx, hxk, hxt⟩
    refine ⟨x, List.mem_filter.mpr ⟨hx, ?_⟩, hxk, hxt⟩
    have hne : ¬(x.kind = o.kind ∧ x.ns = o.ns ∧ x.name = o.name) := by
      rintro ⟨h1, -, -⟩
      exact hk (hxk ▸ h1)
    simp [TrackedObject.sameIdentity, hne]

/-- Membership in the set of types added to or removed from the recorded
set. -/
theorem mem_changedTypes (oldTypes newTypes : List String) (t : String) :
    t ∈ changedTypes oldTypes newTypes ↔
      ((t ∈ oldTypes ∧ t ∉ newTypes) ∨ (t ∈ newTypes ∧ t ∉ oldTypes)) := by
  simp [changedTypes, List.mem_append, List.mem_filter]

/-- The initial tracker state satisfies the invariant. -/
theorem trackerInv_init : TrackerInv TrackerState.init := by
  constructor
  · intro k _ t
    simp [TrackerState.init, hasLiveObject]
  · intro e _
    simp [TrackerState.init]

/-- An add event preserves the tracker invariant. -/
theorem trackerInv_add (s : TrackerState) (o : TrackedObject) (hs : TrackerInv s) :
    TrackerInv (handleAddEvent s o) := by
  obtain ⟨h1, h2⟩ := hs
  constructor
  · intro k hk t
    have hko : k ≠ o.kind := by
      rintro rfl
      exact hk ⟨o.key, self_mem_insertKey _ _⟩
    have hpk : ¬ pendingKind s k := by
      rintro ⟨key, hkey⟩
      exact hk ⟨key, (mem_insertKey _ _ _).mpr (Or.inr hkey)⟩
    show t ∈ s.kindToRequiredTypes k ↔ hasLiveObject (o :: s.live) k t
    rw [hasLiveObject_cons, h1 k hpk t]
    constructor
    · exact Or.inr
    · rintro (⟨hk', -⟩ | h')
      · exact absurd hk'.symm hko
      · exact h'
  · intro e he
    exact h2 e he

/-- A delete event preserves the tracker invariant. -/
theorem trackerInv_delete (s : TrackerState) (o : TrackedObject) (hs : TrackerInv s) :
    TrackerInv (handleDeleteEvent s o) := by
  obtain ⟨h1, h2⟩ := hs
  constructor
  · intro k hk t
    have hko : k ≠ o.kind := by
      rintro rfl
      exact hk ⟨o.key, self_mem_insertKey _ _⟩
    have hpk : ¬ pendingKind s k := by
      rintro ⟨key, hkey⟩
      exact hk ⟨key, (mem_insertKey _ _ _).mpr (Or.inr hkey)⟩
    show t ∈ s.kindToRequiredTypes k ↔
      hasLiveObject (s.live.filter (fun x => !(x.sameIdentity o))) k t
    rw [hasLiveObject_filter_identity s.live o k t hko]
    exact h1 k hpk t
  · intro e he
    exact h2 e he

/-- An update event preserves the tracker invariant. -/
theorem trackerInv_update (s : TrackerState) (oldO newO : TrackedObject)
    (hkind : newO.kind = oldO.kind) (hs : TrackerInv s) :
    TrackerInv (handleUpdateEvent s oldO newO) := by
  obtain ⟨h1, h2⟩ := hs
  unfold handleUpdateEvent
  by_cases ht : newO.extType = oldO.extType
  · rw [if_pos ht]
    constructor
    · intro k hk t
      have hpk : ¬ pendingKind s k := hk
      show t ∈ s.kindToRequiredTypes k ↔ hasLiveObject (s.live.replace oldO newO) k t
      rw [hasLiveObject_replace s.live oldO newO k t (by rw [hkind, ht]), h1 k hpk t]
    · intro e he
      exact h2 e he
  · rw [if_neg ht]
    constructor
    · intro k hk t
      have hko : k ≠ newO.kind := by
        rintro rfl
        exact hk ⟨newO.key, self_mem_insertKey _ _⟩
      have hpk : ¬ pendingKind s k := by
        rintro ⟨key, hkey⟩
        exact hk ⟨key, (mem_insertKey _ _ _).mpr (Or.inr hkey)⟩
      have hiff : (newO.kind = k ∧ newO.extType = t) ↔ (oldO.kind = k ∧ oldO.extType = t) := by
        constructor
        · rintro ⟨h', -⟩
          exact absurd h'.symm hko
        · rintro ⟨h', -⟩
          exact absurd (hkind.trans h').symm hko
      show t ∈ s.kindToRequiredTypes k ↔ hasLiveObject (s.live.replace oldO newO) k t
      rw [hasLiveObject_replace s.live oldO newO k t hiff, h1 k hpk t]
    · intro e he
      exact h2 e he

/-- Processing a per-kind queue entry preserves the tracker invariant. -/
theorem trackerInv_processKind (s : TrackerState) (e : String × String) (hs : TrackerInv s) :
    TrackerInv (processKindEntry s e) := by
  obtain ⟨h1, h2⟩ := hs
  constructor
  · intro k hk t
    show t ∈ (if k = e.1 then typesOfKind s.live e.1 else s.kindToRequiredTypes k) ↔
      hasLiveObject s.live k t
    by_cases hke : k = e.1
    · rw [if_pos hke, hke]
      exact mem_typesOfKind s.live e.1 t
    · rw [if_neg hke]
      have hpk : ¬ pendingKind s k := by
        rintro ⟨key, hkey⟩
        refine hk ⟨key, ?_⟩
        show (k, key) ∈ s.kindQueue.erase e
        have hne : (k, key) ≠ e := by
          intro h'
          exact hke (congrArg Prod.fst h')
        exact (List.mem_erase_of_ne hne).mpr hkey
      exact h1 k hpk t
  · intro e' he'
    have hq :
        (processKindEntry s e).installQueue =
          ((changedTypes (s.kindToRequiredTypes e.1) (typesOfKind s.live e.1)).map
            (fun t => (e.1, t))).foldl (fun q x => insertKey x q) s.installQueue := rfl
    rw [hq] at he'
    have hnotold : e' ∉ s.installQueue := fun h' =>
      he' ((mem_foldl_insertKey _ _ _).mpr (Or.inl h'))
    have hnotnew :
        e' ∉ (changedTypes (s.kindToRequiredTypes e.1) (typesOfKind s.live e.1)).map
          (fun t => (e.1, t)) := fun h' =>
      he' ((mem_foldl_insertKey _ _ _).mpr (Or.inr h'))
    have hreq := h2 e' hnotold
    show s.required e' = true ↔
      e'.2 ∈ (if e'.1 = e.1 then typesOfKind s.live e.1 else s.kindToRequiredTypes e'.1)
    by_cases hke : e'.1 = e.1
    · rw [if_pos hke]
      have hnc : e'.2 ∉ changedTypes (s.kindToRequiredTypes e.1) (typesOfKind s.live e.1) := by
        intro hc
        refine hnotnew ?_
        rw [List.mem_map]
        exact ⟨e'.2, hc, by rw [← hke]⟩
      rw [mem_changedTypes] at hnc
      push_neg at hnc
      obtain ⟨hc1, hc2⟩ := hnc
      rw [hreq, hke]
      constructor
      · intro h'
        exact hc1 h'
      · intro h'
        by_contra h''
        exact h'' (hc2 h')
  -- remaining case below
    · rw [if_neg hke]
      exact hreq

/-- Processing an installation key preserves the tracker invariant. -/
theorem trackerInv_processInstall (s : TrackerState) (e : String × String)
    (hs : TrackerInv s) : TrackerInv (processInstallEntry s e) := by
  obtain ⟨h1, h2⟩ := hs
  constructor
  · intro k hk t
    exact h1 k hk t
  · intro e' he'
    show (if e' = e then decide (e.2 ∈ s.kindToRequiredTypes e.1) else s.required e') = true ↔
      e'.2 ∈ s.kindToRequiredTypes e'.1
    by_cases hee : e' = e
    · rw [if_pos hee, hee]
      simp
    · rw [if_neg hee]
      have hnot : e' ∉ s.installQueue := fun h' =>
        he' ((List.mem_erase_of_ne hee).mpr h')
      exact h2 e' hnot

/-- Every step of the tracking pipeline preserves the invariant. -/
theorem trackerInv_step (s s' : TrackerState) (hstep : TrackerStep s s')
    (hs : TrackerInv s) : TrackerInv s' := by
  cases hstep with
  | addEvent o => exact trackerInv_add s o hs
  | updateEvent oldO newO hkind hns hname => exact trackerInv_update s oldO newO hkind hs
  | deleteEvent o => exact trackerInv_delete s o hs
  | processKind e h => exact trackerInv_processKind s e hs
  | processInstall e h => exact trackerInv_processInstall s e hs

/-- Every state reachable from the initial tracker state satisfies the
invariant. -/
theorem trackerInv_reachable (s : TrackerState)
    (h : Relation.ReflTransGen TrackerStep TrackerState.init s) : TrackerInv s := by
  induction h with
  | refl => exact trackerInv_init
  | tail hab hbc ih => exact trackerInv_step _ _ hbc ih

/-- C1: for every kind and type, after all queues have quiesced following
any finite sequence of add/update/delete events on extension objects of
that kind, the required flag of the installation record for (kind, type)
is true if and only if at least one live extension object of that
(kind, type) exists in the seed cluster. -/
theorem c1_required_iff_live (s : TrackerState)
    (hreach : Relation.ReflTransGen TrackerStep TrackerState.init s)
    (hq : TrackerQuiescent s) (k t : String) :
    s.required (k, t) = true ↔ ∃ o, o ∈ s.live ∧ o.kind = k ∧ o.extType = t := by
  obtain ⟨h1, h2⟩ := trackerInv_reachable s hreach
  obtain ⟨hkq, hiq⟩ := hq
  have hnp : ¬ pendingKind s k := by
    rintro ⟨key, hkey⟩
    rw [hkq] at hkey
    exact absurd hkey (List.not_mem_nil _)
  have hni : (k, t) ∉ s.installQueue := by
    rw [hiq]
    exact List.not_mem_nil _
  rw [h2 (k, t) hni]
  exact h1 k hnp t

/-- C1 witness: a concrete run (add one aws Infrastructure object, drain
both queues) reaching a quiescent state in which the theorem applies. -/
theorem c1_required_iff_live_witness :
    c1SampleFinal.required ("Infrastructure", "aws") = true ↔
      ∃ o, o ∈ c1SampleFinal.live ∧ o.kind = "Infrastructure" ∧ o.extType = "aws" :=
  c1_required_iff_live c1SampleFinal
    (Relation.ReflTransGen.tail
      (Relation.ReflTransGen.tail
        (Relation.ReflTransGen.single
          (TrackerStep.addEvent TrackerState.init sampleTrackedObject))
        (TrackerStep.processKind (handleAddEvent TrackerState.init sampleTrackedObject)
          ("Infrastructure", sampleTrackedObject.key) (by decide)))
      (TrackerStep.processInstall
        (processKindEntry (handleAddEvent TrackerState.init sampleTrackedObject)
          ("Infrastructure", sampleTrackedObject.key))
        ("Infrastructure", "aws") (by decide)))
    ⟨by decide, by decide⟩ "Infrastructure" "aws"

/-- A rejected update predicate short-circuits the handler. -/
theorem createEnqueueOnUpdateFunc_of_false (p : EventObject → EventObject → Bool)
    (queue : Queue) (newObj oldObj : EventObject) (h : p newObj oldObj = false) :
    createEnqueueOnUpdateFunc (some p) queue newObj oldObj = queue := by
  simp [createEnqueueOnUpdateFunc, h]

/-- An accepted update predicate lets the handler enqueue the new
object. -/
theorem createEnqueueOnUpdateFunc_of_true (p : EventObject → EventObject → Bool)
    (queue : Queue) (newObj oldObj : EventObject) (h : p newObj oldObj = true) :
    createEnqueueOnUpdateFunc (some p) queue newObj oldObj = enqueue queue newObj := by
  simp [createEnqueueOnUpdateFunc, h]

/-- Enqueueing an extension object always resolves its key and calls Add
with it. -/
theorem enqueue_extensionObj (queue : Queue) (o : ExtensionObject) :
    enqueue queue (.extensionObj o) =
      queue.add (if o.ns = "" then o.name else o.ns ++ "/" ++ o.name) := rfl

/-- C2: on an update where the extension type is unchanged but the
observed state differs, the handler enqueues the key of the object into
the state-mirror queue and leaves the required-type queue untouched; on an
update where only the type changed it enqueues into the required-type
queue and leaves the state-mirror queue untouched. -/
theorem c2_update_predicate_precision (q1 q2 : Queue) (n o : ExtensionObject) :
    (n.spec.extType = o.spec.extType → n.status.state ≠ o.status.state →
      enqueueOnUpdateStateMirror q2 (.extensionObj n) (.extensionObj o) =
        q2.add (if n.ns = "" then n.name else n.ns ++ "/" ++ n.name) ∧
      enqueueOnUpdateRequiredType q1 (.extensionObj n) (.extensionObj o) = q1) ∧
    (n.spec.extType ≠ o.spec.extType → n.status.state = o.status.state →
      n.status.resources = o.status.resources →
      enqueueOnUpdateRequiredType q1 (.extensionObj n) (.extensionObj o) =
        q1.add (if n.ns = "" then n.name else n.ns ++ "/" ++ n.name) ∧
      enqueueOnUpdateStateMirror q2 (.extensionObj n) (.extensionObj o) = q2) := by
  constructor
  · intro hty hst
    constructor
    · rw [enqueueOnUpdateStateMirror,
        createEnqueueOnUpdateFunc_of_true _ _ _ _
          (by simp [extensionStateOrResourcesChanged, extensionPredicateFunc, hst])]
      exact enqueue_extensionObj q2 n
    · exact createEnqueueOnUpdateFunc_of_false _ _ _ _
        (by simp [extensionTypeChanged, extensionPredicateFunc, hty])
  · intro hty hst hres
    constructor
    · rw [enqueueOnUpdateRequiredType,
        createEnqueueOnUpdateFunc_of_true _ _ _ _
          (by simp [extensionTypeChanged, extensionPredicateFunc]
              exact fun h' => hty h'.symm)]
      exact enqueue_extensionObj q1 n
    · exact createEnqueueOnUpdateFunc_of_false _ _ _ _
        (by simp [extensionStateOrResourcesChanged, extensionPredicateFunc, hst, hres])

/-- C2 witness: both directions exercised on concrete updates of an aws
Infrastructure object. -/
theorem c2_update_predicate_precision_witness :
    (enqueueOnUpdateStateMirror Queue.empty (.extensionObj c2SampleNew)
        (.extensionObj c2SampleOld) = Queue.empty.add "shoot--foo--bar/infra" ∧
      enqueueOnUpdateRequiredType Queue.empty (.extensionObj c2SampleNew)
        (.extensionObj c2SampleOld) = Queue.empty) ∧
    (enqueueOnUpdateRequiredType Queue.empty (.extensionObj c2SampleNewType)
        (.extensionObj c2SampleOld) = Queue.empty.add "shoot--foo--bar/infra" ∧
      enqueueOnUpdateStateMirror Queue.empty (.extensionObj c2SampleNewType)
        (.extensionObj c2SampleOld) = Queue.empty) :=
  ⟨(c2_update_predicate_precision Queue.empty Queue.empty c2SampleNew c2SampleOld).1
      rfl (by decide),
    (c2_update_predicate_precision Queue.empty Queue.empty c2SampleNewType c2SampleOld).2
      (by decide) rfl rfl⟩

/-- C3: when the informer caches do not all report sync within the
two-minute startup timeout, Controller.Run returns a non-nil error and
launches no worker loop. -/
theorem c3_cache_sync_timeout (artifacts : List ArtifactShape)
    (controllerInstallationWorkers shootStateWorkers : Nat) :
    (Controller.run false artifacts controllerInstallationWorkers shootStateWorkers).error =
      some "timeout waiting for extension informers to sync" ∧
    (Controller.run false artifacts controllerInstallationWorkers
      shootStateWorkers).workersStarted = 0 ∧
    runCacheSyncTimeoutSeconds = 2 * 60 :=
  ⟨rfl, rfl, rfl⟩

/-- C9: when the key of the object cannot be computed, enqueue drops the
event silently, leaving the queue unchanged, and surfaces nothing (the
handler has no error output). -/
theorem c9_keyless_event_dropped (queue : Queue) (obj : EventObject) (e : String)
    (herr : metaNamespaceKeyFunc obj = Except.error e) :
    enqueue queue obj = queue := by
  unfold enqueue
  rw [herr]

/-- C9 witness: a keyless payload makes the key function fail and the
enqueue leave the queue as it was. -/
theorem c9_keyless_event_dropped_witness :
    metaNamespaceKeyFunc EventObject.keyless = Except.error "object has no meta" ∧
      enqueue Queue.empty EventObject.keyless = Queue.empty :=
  ⟨rfl, c9_keyless_event_dropped Queue.empty EventObject.keyless "object has no meta" rfl⟩

/-- C10: when either payload of an update is not an extension object, both
update predicates return false and the update handlers leave both queues
unchanged. -/
theorem c10_non_extension_update_ignored (q1 q2 : Queue) (newObj oldObj : EventObject)
    (h : (∀ o, newObj ≠ EventObject.extensionObj o) ∨
      (∀ o, oldObj ≠ EventObject.extensionObj o)) :
    extensionStateOrResourcesChanged newObj oldObj = false ∧
    extensionTypeChanged newObj oldObj = false ∧
    enqueueOnUpdateRequiredType q1 newObj oldObj = q1 ∧
    enqueueOnUpdateStateMirror q2 newObj oldObj = q2 := by
  have hp : ∀ f, extensionPredicateFunc f newObj oldObj = false := by
    intro f
    cases hn : newObj with
    | extensionObj n =>
      cases ho : oldObj with
      | extensionObj o =>
        rcases h with h' | h'
        · exact absurd hn (h' n)
        · exact absurd ho (h' o)
      | foreignWithMeta ns name => rfl
      | keyless => rfl
    | foreignWithMeta ns name => rfl
    | keyless => rfl
  refine ⟨hp _, hp _, ?_, ?_⟩
  · exact createEnqueueOnUpdateFunc_of_false _ _ _ _ (hp _)
  · exact createEnqueueOnUpdateFunc_of_false _ _ _ _ (hp _)

/-- C10 witness: an update pairing an extension object with a foreign
object is ignored by both predicates and both queues. -/
theorem c10_non_extension_update_ignored_witness :
    extensionStateOrResourcesChanged (.foreignWithMeta "kube-system" "cm")
        (.extensionObj c2SampleOld) = false ∧
    extensionTypeChanged (.foreignWithMeta "kube-system" "cm")
        (.extensionObj c2SampleOld) = false ∧
    enqueueOnUpdateRequiredType Queue.empty (.foreignWithMeta "kube-system" "cm")
        (.extensionObj c2SampleOld) = Queue.empty ∧
    enqueueOnUpdateStateMirror Queue.empty (.foreignWithMeta "kube-system" "cm")
        (.extensionObj c2SampleOld) = Queue.empty :=
  c10_non_extension_update_ignored Queue.empty Queue.empty
    (.foreignWithMeta "kube-system" "cm") (.extensionObj c2SampleOld)
    (Or.inl (fun _ h => EventObject.noConfusion h))

/-- C4 counterexample: an update whose resources lists hold the same two
references in swapped order, with unchanged state, is reported as changed
and enqueued into the state-mirror queue, against the claim. -/
theorem c4_order_insensitive_counterexample :
    c4SampleNew.status.resources.Perm c4SampleOld.status.resources ∧
    c4SampleNew.status.resources ≠ c4SampleOld.status.resources ∧
    c4SampleNew.status.state = c4SampleOld.status.state ∧
    extensionStateOrResourcesChanged (.extensionObj c4SampleNew)
      (.extensionObj c4SampleOld) = true ∧
    enqueueOnUpdateStateMirror Queue.empty (.extensionObj c4SampleNew)
      (.extensionObj c4SampleOld) ≠ Queue.empty :=
  ⟨List.Perm.swap refA refB [], by decide, rfl, by decide, by decide⟩

/-- C4 amended: the comparison of observedResources is order-sensitive
element-wise list equality; with observedState unchanged, an update whose
resources lists are equal as lists reports no change and enqueues nothing
into the state-mirror queue, while an update whose resources lists differ
as lists (including a permutation of the same elements) reports a change
and enqueues the key. -/
theorem c4_resources_compared_in_order (q : Queue) (n o : ExtensionObject)
    (hst : n.status.state = o.status.state) :
    (n.status.resources = o.status.resources →
      extensionStateOrResourcesChanged (.extensionObj n) (.extensionObj o) = false ∧
      enqueueOnUpdateStateMirror q (.extensionObj n) (.extensionObj o) = q) ∧
    (n.status.resources ≠ o.status.resources →
      extensionStateOrResourcesChanged (.extensionObj n) (.extensionObj o) = true ∧
      enqueueOnUpdateStateMirror q (.extensionObj n) (.extensionObj o) =
        q.add (if n.ns = "" then n.name else n.ns ++ "/" ++ n.name)) := by
  constructor
  · intro hres
    have hfalse : extensionStateOrResourcesChanged (.extensionObj n) (.extensionObj o) = false := by
      simp [extensionStateOrResourcesChanged, extensionPredicateFunc, hst, hres]
    exact ⟨hfalse, createEnqueueOnUpdateFunc_of_false _ _ _ _ hfalse⟩
  · intro hres
    have htrue : extensionStateOrResourcesChanged (.extensionObj n) (.extensionObj o) = true := by
      simp [extensionStateOrResourcesChanged, extensionPredicateFunc, hres]
    refine ⟨htrue, ?_⟩
    rw [enqueueOnUpdateStateMirror, createEnqueueOnUpdateFunc_of_true _ _ _ _ htrue]
    exact enqueue_extensionObj q n

/-- C4 amended witness: equal lists report no change; the swapped lists of
the counterexample report a change and enqueue the key. -/
theorem c4_resources_compared_in_order_witness :
    (extensionStateOrResourcesChanged (.extensionObj c4SampleOld)
        (.extensionObj c4SampleOld) = false ∧
      enqueueOnUpdateStateMirror Queue.empty (.extensionObj c4SampleOld)
        (.extensionObj c4SampleOld) = Queue.empty) ∧
    (extensionStateOrResourcesChanged (.extensionObj c4SampleNew)
        (.extensionObj c4SampleOld) = true ∧
      enqueueOnUpdateStateMirror Queue.empty (.extensionObj c4SampleNew)
        (.extensionObj c4SampleOld) = Queue.empty.add "shoot--foo--bar/infra") :=
  ⟨(c4_resources_compared_in_order Queue.empty c4SampleOld c4SampleOld rfl).1 rfl,
    (c4_resources_compared_in_order Queue.empty c4SampleNew c4SampleOld rfl).2 (by decide)⟩

/-- C5 counterexample: the same JSON value {"x":1} serialized twice with
different bytes is reported as a state change and enqueued into the
state-mirror queue, against the claim. -/
theorem c5_reserialized_state_counterexample :
    c5SampleOld.status.state = some { raw := Json.renderWith "" c5SampleValue } ∧
    c5SampleNew.status.state = some { raw := Json.renderWith " " c5SampleValue } ∧
    c5SampleNew.status.state ≠ c5SampleOld.status.state ∧
    extensionStateOrResourcesChanged (.extensionObj c5SampleNew)
      (.extensionObj c5SampleOld) = true ∧
    enqueueOnUpdateStateMirror Queue.empty (.extensionObj c5SampleNew)
      (.extensionObj c5SampleOld) ≠ Queue.empty :=
  ⟨rfl, rfl, by decide, by decide, by decide⟩

/-- C5 amended: the state comparison is byte-level equality of the
serialized representation; with observedResources unchanged, an update
whose state bytes are unchanged reports no change and enqueues nothing
into the state-mirror queue, while every update whose state bytes differ
(including a re-serialization of a semantically equal value) is reported
as a change and the key is enqueued. -/
theorem c5_state_compared_by_bytes (q : Queue) (n o : ExtensionObject)
    (hres : n.status.resources = o.status.resources) :
    (n.status.state = o.status.state →
      extensionStateOrResourcesChanged (.extensionObj n) (.extensionObj o) = false ∧
      enqueueOnUpdateStateMirror q (.extensionObj n) (.extensionObj o) = q) ∧
    (n.status.state ≠ o.status.state →
      extensionStateOrResourcesChanged (.extensionObj n) (.extensionObj o) = true ∧
      enqueueOnUpdateStateMirror q (.extensionObj n) (.extensionObj o) =
        q.add (if n.ns = "" then n.name else n.ns ++ "/" ++ n.name)) := by
  constructor
  · intro hst
    have hfalse : extensionStateOrResourcesChanged (.extensionObj n) (.extensionObj o) = false := by
      simp [extensionStateOrResourcesChanged, extensionPredicateFunc, hst, hres]
    exact ⟨hfalse, createEnqueueOnUpdateFunc_of_false _ _ _ _ hfalse⟩
  · intro hst
    have htrue : extensionStateOrResourcesChanged (.extensionObj n) (.extensionObj o) = true := by
      simp [extensionStateOrResourcesChanged, extensionPredicateFunc, hst]
    refine ⟨htrue, ?_⟩
    rw [enqueueOnUpdateStateMirror, createEnqueueOnUpdateFunc_of_true _ _ _ _ htrue]
    exact enqueue_extensionObj q n

/-- C5 amended witness: an update that leaves the serialized state bytes
untouched reports no change and enqueues nothing, while the two
serializations of the same JSON value are reported as a change and the
key is enqueued. -/
theorem c5_state_compared_by_bytes_witness :
    (extensionStateOrResourcesChanged (.extensionObj c5SampleOld)
        (.extensionObj c5SampleOld) = false ∧
      enqueueOnUpdateStateMirror Queue.empty (.extensionObj c5SampleOld)
        (.extensionObj c5SampleOld) = Queue.empty) ∧
    (extensionStateOrResourcesChanged (.extensionObj c5SampleNew)
        (.extensionObj c5SampleOld) = true ∧
      enqueueOnUpdateStateMirror Queue.empty (.extensionObj c5SampleNew)
        (.extensionObj c5SampleOld) = Queue.empty.add "shoot--foo--bar/infra") :=
  ⟨(c5_state_compared_by_bytes Queue.empty c5SampleOld c5SampleOld rfl).1 rfl,
    (c5_state_compared_by_bytes Queue.empty c5SampleNew c5SampleOld rfl).2 (by decide)⟩

/-- Setting the flag of a record changes exactly the looked-up value of
that record, when it exists. -/
theorem lookupRecord_setRecord (rs : List ((String × String) × Bool)) (e : String × String)
    (b : Bool) :
    lookupRecord (setRecord rs e b) e = (lookupRecord rs e).map (fun _ => b) := by
  induction rs with
  | nil => rfl
  | cons r tl ih =>
    by_cases hr : r.1 = e
    · simp [setRecord, lookupRecord, hr]
    · simp only [setRecord, lookupRecord, List.map_cons, if_neg hr] at ih ⊢
      rw [List.find?_cons_of_neg _ (by simp [hr]), List.find?_cons_of_neg _ (by simp [hr])]
      exact ih

/-- Every snapshot entry carries its own key. -/
theorem SnapshotEntry.hasKey_self (e : SnapshotEntry) :
    e.hasKey e.kind e.name e.purpose = true := by
  simp [SnapshotEntry.hasKey]

/-- After replacing every keyed entry, the key of the upserted entry finds
exactly that entry. -/
theorem find?_hasKey_map_upsert (entries : List SnapshotEntry) (e : SnapshotEntry)
    (h : entries.any (fun x => x.hasKey e.kind e.name e.purpose) = true) :
    (entries.map (fun x => if x.hasKey e.kind e.name e.purpose then e else x)).find?
      (fun x => x.hasKey e.kind e.name e.purpose) = some e := by
  induction entries with
  | nil => simp at h
  | cons x xs ih =>
    by_cases hx : x.hasKey e.kind e.name e.purpose = true
    · simp [hx, SnapshotEntry.hasKey_self]
    · have hx' : x.hasKey e.kind e.name e.purpose = false := by
        cases hxx : x.hasKey e.kind e.name e.purpose
        · rfl
        · exact absurd hxx hx
      simp only [List.any_cons, hx', Bool.false_or] at h
      simp [hx', ih h]

/-- After an upsert, looking up the key of the upserted entry yields that
entry. -/
theorem findSnapshotEntry_upsert (entries : List SnapshotEntry) (e : SnapshotEntry) :
    findSnapshotEntry (upsertSnapshotEntry entries e) e.kind e.name e.purpose = some e := by
  unfold upsertSnapshotEntry findSnapshotEntry
  by_cases h : entries.any (fun x => x.hasKey e.kind e.name e.purpose) = true
  · rw [if_pos h]
    exact find?_hasKey_map_upsert entries e h
  · rw [if_neg h]
    rw [List.find?_append]
    have hnone : entries.find? (fun x => x.hasKey e.kind e.name e.purpose) = none := by
      rw [List.find?_eq_none]
      intro x hx hpx
      exact h (List.any_eq_true.mpr ⟨x, hx, hpx⟩)
    rw [hnone]
    simp [SnapshotEntry.hasKey_self]

/-- C6: both reconcile operations are idempotent: running the
installation-required reconcile or the state-mirror sync twice in a row
with no intervening change performs no write on the second run and leaves
the state of the first run untouched. -/
theorem c6_reconcile_idempotent (w : InstallationWorld) (e : String × String)
    (kind : String) (objectRead : Option ExtensionObject) (tenantFound : Bool)
    (snapshot : List SnapshotEntry) :
    reconcileInstallationRequired (reconcileInstallationRequired w e).1 e =
      ((reconcileInstallationRequired w e).1, false) ∧
    syncExtensionState kind objectRead tenantFound
        (syncExtensionState kind objectRead tenantFound snapshot).1 =
      ((syncExtensionState kind objectRead tenantFound snapshot).1, false) := by
  constructor
  · unfold reconcileInstallationRequired
    cases hl : lookupRecord w.records e with
    | none => simp [hl]
    | some req =>
      by_cases hw : decide (e.2 ∈ w.kindToRequiredTypes e.1) = req
      · simp [hl, hw]
      · simp [hl, hw, lookupRecord_setRecord]
  · cases objectRead with
    | none => rfl
    | some o =>
      by_cases htf : tenantFound
      · unfold syncExtensionState
        simp only [htf, Bool.not_true, Bool.false_eq_true, if_false]
        by_cases hf : findSnapshotEntry snapshot kind o.name o.spec.purpose =
            some { kind := kind, name := o.name, purpose := o.spec.purpose,
                   state := o.status.state, resources := o.status.resources }
        · rw [if_pos hf, if_pos hf]
        · rw [if_neg hf]
          rw [if_pos (findSnapshotEntry_upsert snapshot _)]
      · unfold syncExtensionState
        have hft : tenantFound = false := by
          cases htff : tenantFound
          · rfl
          · exact absurd htff htf
        simp [hft]

/-- A step of the controller preserves the shutdown safety invariant. -/
theorem stopInv_step (s s' : ControllerSystem) (hstep : SystemStep s s')
    (hs : StopInv s) : StopInv s' := by
  obtain ⟨h1, h2⟩ := hs
  cases hstep with
  | workerProcess i w q hw hrun hq hne =>
    constructor
    · intro hphase q' hq'
      unfold popQueueItem at hq'
      rw [hq] at hq'
      rcases List.mem_or_eq_of_mem_set hq' with h' | h'
      · exact h1 hphase q' h'
      · rw [h']
        exact h1 hphase q (List.get?_mem hq)
    · intro hphase
      exact h2 hphase
  | workerExit i w q hw hrun hq hshut hempty =>
    constructor
    · intro hphase q' hq'
      exact h1 hphase q' hq'
    · intro hphase w' hw'
      unfold markWorkerDone at hw'
      rw [hw] at hw'
      rcases List.mem_or_eq_of_mem_set hw' with h' | h'
      · exact h2 hphase w' h'
      · rw [h']
  | stopShutdown h =>
    constructor
    · intro _ q hq'
      obtain ⟨q0, -, rfl⟩ := List.mem_map.mp hq'
      rfl
    · intro hphase
      exact StopPhase.noConfusion hphase
  | stopReturn h hall =>
    constructor
    · intro _ q hq'
      refine h1 ?_ q hq'
      rw [h]
      exact fun hc => StopPhase.noConfusion hc
    · intro _
      exact hall

/-- Every state reachable from a controller on which Stop has not yet
been called satisfies the shutdown safety invariant. -/
theorem stopInv_reachable (s0 s : ControllerSystem) (h0 : s0.phase = StopPhase.notCalled)
    (h : Relation.ReflTransGen SystemStep s0 s) : StopInv s := by
  induction h with
  | refl =>
    constructor
    · intro hph
      exact absurd h0 hph
    · intro hph
      exact absurd (h0.symm.trans hph) (by decide)
  | tail hab hbc ih => exact stopInv_step _ _ hbc ih

/-- C7: Stop marks every queue as shutting down before waiting, and when
Stop has returned every worker loop has returned; Stop never returns while
a worker loop is still running. -/
theorem c7_stop_waits_for_workers (s0 s : ControllerSystem)
    (h0 : s0.phase = StopPhase.notCalled)
    (hreach : Relation.ReflTransGen SystemStep s0 s)
    (hret : s.phase = StopPhase.returned) :
    (∀ w ∈ s.workers, w.running = false) ∧ (∀ q ∈ s.queues, q.shuttingDown = true) := by
  obtain ⟨h1, h2⟩ := stopInv_reachable s0 s h0 hreach
  refine ⟨h2 hret, h1 ?_⟩
  rw [hret]
  exact fun hc => StopPhase.noConfusion hc

/-- C7 witness: a concrete controller with one queue and one worker walks
through Stop: queues shut down, the worker observes closure and returns,
the wait releases Stop. -/
theorem c7_stop_waits_for_workers_witness :
    (∀ w ∈ c7SampleFinal.workers, w.running = false) ∧
    (∀ q ∈ c7SampleFinal.queues, q.shuttingDown = true) :=
  c7_stop_waits_for_workers c7SampleInit c7SampleFinal rfl
    (Relation.ReflTransGen.tail
      (Relation.ReflTransGen.tail
        (Relation.ReflTransGen.single (SystemStep.stopShutdown c7SampleInit rfl))
        (SystemStep.workerExit c7SampleMid1 0 { queueIdx := 0, running := true }
          { items := [], shuttingDown := true } rfl rfl rfl rfl rfl))
      (SystemStep.stopReturn c7SampleMid2 rfl (by decide)))
    rfl

/-- C8: every event-handler enqueue path only touches its work queue: the
kindToRequiredTypes aggregate and both lock counters are left exactly as
they were, and the queue outcome does not depend on the shared state at
all (two views agreeing on the queue produce the same queue). -/
theorem c8_handlers_touch_only_queue (s s2 : HandlerView)
    (p : Option (EventObject → EventObject → Bool)) (obj newObj oldObj : EventObject)
    (hq : s.queue = s2.queue) :
    ((handlerOnAdd s obj).shared = s.shared ∧
      (handlerOnUpdate p s newObj oldObj).shared = s.shared ∧
      (handlerOnDelete s obj).shared = s.shared) ∧
    ((handlerOnAdd s obj).queue = (handlerOnAdd s2 obj).queue ∧
      (handlerOnUpdate p s newObj oldObj).queue = (handlerOnUpdate p s2 newObj oldObj).queue ∧
      (handlerOnDelete s obj).queue = (handlerOnDelete s2 obj).queue) := by
  refine ⟨⟨rfl, rfl, rfl⟩, ?_, ?_, ?_⟩ <;>
    simp [handlerOnAdd, handlerOnUpdate, handlerOnDelete, hq]

/-- C8 witness: two views sharing an empty queue, one with an empty
aggregate and one with a populated locked aggregate, behave identically on
a concrete add/update/delete. -/
theorem c8_handlers_touch_only_queue_witness :
    ((handlerOnAdd c8SampleA (.extensionObj c2SampleOld)).shared = c8SampleA.shared ∧
      (handlerOnUpdate (some extensionTypeChanged) c8SampleA (.extensionObj c2SampleNew)
        (.extensionObj c2SampleOld)).shared = c8SampleA.shared ∧
      (handlerOnDelete c8SampleA (.extensionObj c2SampleOld)).shared = c8SampleA.shared) ∧
    ((handlerOnAdd c8SampleA (.extensionObj c2SampleOld)).queue =
        (handlerOnAdd c8SampleB (.extensionObj c2SampleOld)).queue ∧
      (handlerOnUpdate (some extensionTypeChanged) c8SampleA (.extensionObj c2SampleNew)
          (.extensionObj c2SampleOld)).queue =
        (handlerOnUpdate (some extensionTypeChanged) c8SampleB (.extensionObj c2SampleNew)
          (.extensionObj c2SampleOld)).queue ∧
      (handlerOnDelete c8SampleA (.extensionObj c2SampleOld)).queue =
        (handlerOnDelete c8SampleB (.extensionObj c2SampleOld)).queue) :=
  c8_handlers_touch_only_queue c8SampleA c8SampleB (some extensionTypeChanged)
    (.extensionObj c2SampleOld) (.extensionObj c2SampleNew) (.extensionObj c2SampleOld) rfl

end Gardener
